import Mathlib

/-!
Shallow embedding of the core logic of the icd9 lookup app
(src/assets/js/app.js): favorites store, dataset cache, and the
search/partition/pin rendering pipeline, together with theorems
checking the specification claims.

Platform primitives (the Fuse.js search index, SHA-256 via
crypto.subtle, JSON.parse via TextDecoder) are not repository code;
they enter the embedding as function parameters (fuseSearch, hash,
parse).  JSON.stringify is modelled as a canonical executable
serializer over the structured values the app stores.
-/

namespace Icd9

/-- One catalog entry, per the Record data model: code (unique key),
name, kind, optional short abbreviation, optional synonym list. -/
structure Record where
  code : String
  name : String
  kind : String
  short : Option String
  syn : List String
deriving DecidableEq, Repr

/-- A decoded JSON value as far as the app distinguishes it: either an
array of records (the expected dataset shape) or some other JSON value,
carried as its serialized text.  loadFromCache checks Array.isArray, so
this is the only shape distinction the code ever makes. -/
inductive Jv where
  | arr (records : List Record)
  | other (text : String)
deriving DecidableEq, Repr

/-- The value fetchAndCache stores under the dataset key:
version (content hash), updated (Date.now), data (parsed JSON). -/
structure CachedValue where
  version : String
  updated : Nat
  data : Jv
deriving DecidableEq, Repr

/-- MAX_RESULTS constant from app.js. -/
def MAX_RESULTS : Nat := 100

/-- KEY, the fixed IndexedDB key of the dataset snapshot. -/
def KEY : String := "icd9-rich"

/-- FAV_STORAGE_KEY, the localStorage key of the favorite code list. -/
def FAV_STORAGE_KEY : String := "icd9:favs"

/-- FAV_LRU_KEY, the localStorage key of the code-to-timestamp map. -/
def FAV_LRU_KEY : String := "icd9:favs:lru"

/-- Whole application state: the IndexedDB object store (dataset
cache), localStorage, and the resident globals FAVS, FAV_LRU, DATA and
FUSE.  FAVS is the JS Set in insertion order; FAV_LRU is the JS object
as an association list in key insertion order; FUSE records the data
the search index was last built from (buildFuse). -/
structure AppState where
  idb : List (String × CachedValue)
  store : List (String × String)
  favs : List String
  lru : List (String × Nat)
  DATA : Option Jv
  FUSE : Option Jv
deriving DecidableEq, Repr

/-- Assignment into a string-keyed JS object / storage map: overwrite
the existing entry in place, else append a new entry. -/
def assocSet (l : List (String × α)) (k : String) (v : α) : List (String × α) :=
  if l.any (fun p => p.1 = k) then
    l.map (fun p => if p.1 = k then (k, v) else p)
  else l ++ [(k, v)]

/-- localStorage.setItem. -/
def storeSet (store : List (String × String)) (k v : String) : List (String × String) :=
  assocSet store k v

/-- IndexedDB put (idbSet). -/
def idbSet (idb : List (String × CachedValue)) (k : String) (v : CachedValue) :
    List (String × CachedValue) :=
  assocSet idb k v

/-- IndexedDB delete (idbDel). -/
def idbDel (idb : List (String × CachedValue)) (k : String) : List (String × CachedValue) :=
  idb.filter (fun p => p.1 ≠ k)

/-- touchFav: FAV_LRU[code] = Date.now(). -/
def touchFav (lru : List (String × Nat)) (code : String) (now : Nat) : List (String × Nat) :=
  assocSet lru code now

/-- The delete operator on FAV_LRU: remove the entry for this code. -/
def lruDelete (lru : List (String × Nat)) (code : String) : List (String × Nat) :=
  lru.filter (fun p => p.1 ≠ code)

/-- FAV_LRU[code] || 0: look the code up, a missing entry reads as 0. -/
def lruTs (lru : List (String × Nat)) (code : String) : Nat :=
  (lru.lookup code).getD 0

/-- Minimal JSON string escaping (backslash and double quote), the part
of JSON.stringify string encoding the stored data can exercise. -/
def jsonEscape (s : String) : String :=
  s.foldl (fun acc c =>
    if c = '"' then acc ++ "\\\""
    else if c = '\\' then acc ++ "\\\\"
    else acc.push c) ""

/-- A JSON string literal. -/
def jsonString (s : String) : String :=
  "\"" ++ jsonEscape s ++ "\""

/-- Canonical JSON.stringify of one record object.  The optional
fields are omitted when absent, matching stringify of an object that
lacks those keys. -/
def recordToJson (r : Record) : String :=
  "\x7b" ++ "\"code\":" ++ jsonString r.code
    ++ ",\"name\":" ++ jsonString r.name
    ++ ",\"kind\":" ++ jsonString r.kind
    ++ (match r.short with
        | some sh => ",\"short\":" ++ jsonString sh
        | none => "")
    ++ (match r.syn with
        | [] => ""
        | l => ",\"syn\":[" ++ String.intercalate "," (l.map jsonString) ++ "]")
    ++ "\x7d"

/-- JSON.stringify of the parsed dataset value: a record array is
serialized element by element in list order; any other value is
carried as its own serialized text. -/
def stringifyJv : Jv → String
  | Jv.arr rs => "[" ++ String.intercalate "," (rs.map recordToJson) ++ "]"
  | Jv.other t => t

/-- JSON.stringify([...FAVS]). -/
def stringifyFavs (favs : List String) : String :=
  "[" ++ String.intercalate "," (favs.map jsonString) ++ "]"

/-- JSON.stringify(FAV_LRU). -/
def stringifyLru (lru : List (String × Nat)) : String :=
  "\x7b" ++ String.intercalate ","
      (lru.map (fun p => jsonString p.1 ++ ":" ++ toString p.2)) ++ "\x7d"

/-- saveFavs: persist both the favorite set and the recency map, in
full, to their two localStorage keys. -/
def saveFavs (s : AppState) : AppState :=
  let st := storeSet (storeSet s.store FAV_STORAGE_KEY (stringifyFavs s.favs))
    FAV_LRU_KEY (stringifyLru s.lru)
  { s with store := st }

/-- onStarClick body for a card with the given code: toggle membership
in FAVS, maintain FAV_LRU accordingly, then saveFavs. -/
def onStarClick (s : AppState) (code : String) (now : Nat) : AppState :=
  let s1 :=
    if code ∈ s.favs then
      { s with favs := s.favs.filter (fun c => c ≠ code),
               lru := lruDelete s.lru code }
    else
      { s with favs := s.favs ++ [code],
               lru := touchFav s.lru code now }
  saveFavs s1

/-- The Map built in getFavRecords from [r.code, r] entries: a later
entry overwrites an earlier one, so lookup returns the last record in
the catalog bearing the code. -/
def byCodeGet (all : List Record) (code : String) : Option Record :=
  (all.filter (fun r => r.code = code)).getLast?

/-- The getFavRecords sort comparator as a Boolean precedes-or-ties
relation: a sorts no later than b when its timestamp is larger, or the
timestamps tie and its code is lexicographically no larger. -/
def favLe (lru : List (String × Nat)) (a b : Record) : Bool :=
  (lruTs lru b.code < lruTs lru a.code)
    || (lruTs lru a.code = lruTs lru b.code && a.code ≤ b.code)

/-- getFavRecords: resolve each favorited code against the catalog map,
drop codes with no record, sort by timestamp descending then code
ascending. -/
def getFavRecords (all : List Record) (favs : List String)
    (lru : List (String × Nat)) : List Record :=
  List.mergeSort (favs.filterMap (byCodeGet all)) (favLe lru)

/-- The partition loop of renderSearch: push each hit onto favHits when
its code is in the favorite set, else onto otherHits. -/
def partitionHits (favs : List String) (hits : List Record) :
    List Record × List Record :=
  hits.foldl
    (fun acc it =>
      if it.code ∈ favs then (acc.1 ++ [it], acc.2) else (acc.1, acc.2 ++ [it]))
    ([], [])

/-- The trim() call on the query input: strip whitespace from both
ends of the string. -/
def jsTrim (s : String) : String :=
  String.mk (((s.data.dropWhile Char.isWhitespace).reverse.dropWhile Char.isWhitespace).reverse)

/-- The two ordered lists renderSearch hands to the presentation layer,
plus the favorite count shown next to the pinned section. -/
structure SearchOutput where
  otherResults : List Record
  pinnedFavs : List Record
  favCount : Nat
deriving DecidableEq, Repr

/-- renderSearch as a pure function of the raw query, the resident
catalog, the favorite state, and the outside fuzzy index
(fuseSearch q standing for FUSE.search(q).map(r.item)). -/
def renderSearch (fuseSearch : String → List Record) (data : List Record)
    (favs : List String) (lru : List (String × Nat)) (qraw : String) :
    SearchOutput :=
  let q := jsTrim qraw
  let hits := if q ≠ "" then fuseSearch q else data.take (MAX_RESULTS * 2)
  let p := partitionHits favs hits
  let favHits := p.1
  let otherHits := p.2
  let allFavs := getFavRecords data favs lru
  let favFiltered :=
    if q ≠ "" then allFavs.filter (fun r => favHits.any (fun x => x.code = r.code))
    else allFavs
  { otherResults := otherHits.take MAX_RESULTS
    pinnedFavs := favFiltered
    favCount := allFavs.length }

/-- Failure modes of fetchAndCache: the thrown fetch error (transport
failure or the explicit non-ok throw) or a JSON.parse failure. -/
inductive FetchFailure where
  | fetchError (msg : String)
  | decodeError
deriving DecidableEq, Repr

/-- A settled network response: HTTP ok flag and the raw payload bytes.
A transport error is the absence of a response. -/
structure FetchResp where
  ok : Bool
  bytes : List Nat
deriving DecidableEq, Repr

/-- fetchAndCache: on a transport error or non-ok status fail with a
fetch error; otherwise hash the raw bytes into the version, decode and
parse them, store the cached value under KEY with the current time,
and set the resident DATA and rebuild FUSE.  The failure cases return
the state untouched. -/
def fetchAndCache (hash : List Nat → String) (parse : List Nat → Option Jv)
    (resp : Option FetchResp) (now : Nat) (s : AppState) :
    Option FetchFailure × AppState :=
  match resp with
  | none => (some (FetchFailure.fetchError "transport"), s)
  | some r =>
    if r.ok = false then
      (some (FetchFailure.fetchError "Fetch failed"), s)
    else
      let version := hash r.bytes
      match parse r.bytes with
      | none => (some FetchFailure.decodeError, s)
      | some json =>
        (none,
          { s with idb := idbSet s.idb KEY ⟨version, now, json⟩,
                   DATA := some json, FUSE := some json })

/-- loadFromCache: read the dataset key; when present and its data is
an array, install it as the resident DATA, rebuild FUSE, and report the
hit (the cached value); otherwise report a miss and change nothing. -/
def loadFromCache (s : AppState) : Option CachedValue × AppState :=
  match s.idb.lookup KEY with
  | some c =>
    match c.data with
    | Jv.arr _ => (some c, { s with DATA := some c.data, FUSE := some c.data })
    | Jv.other _ => (none, s)
  | none => (none, s)

/-- The btnClear click handler: delete the dataset key from IndexedDB
and drop the resident DATA and FUSE.  Favorites are kept. -/
def btnClearClick (s : AppState) : AppState :=
  { s with idb := idbDel s.idb KEY, DATA := none, FUSE := none }

/-- The btnExport click handler: with no cached snapshot, no artifact;
otherwise a download named icd9.json whose content is
JSON.stringify(cached.data). -/
def btnExportClick (s : AppState) : Option (String × String) :=
  match s.idb.lookup KEY with
  | none => none
  | some c => some ("icd9.json", stringifyJv c.data)

/-! Association-list lemmas about the storage primitives. -/

theorem lookup_cons_pair {β : Type} (a : String) (p : String × β) (t : List (String × β)) :
    (p :: t).lookup a = if a = p.1 then some p.2 else t.lookup a := by
  by_cases h : a = p.1
  · simp [List.lookup, h, beq_self_eq_true]
  · have hb : (a == p.1) = false := beq_eq_false_iff_ne.2 h
    simp [List.lookup, h, hb]

theorem lookup_filter_ne_self {β : Type} (l : List (String × β)) (k : String) :
    (l.filter (fun p => p.1 ≠ k)).lookup k = none := by
  induction l with
  | nil => simp
  | cons p t ih =>
    by_cases h : p.1 = k
    · simpa [List.filter_cons, h] using ih
    · simpa [List.filter_cons, h, lookup_cons_pair, Ne.symm h] using ih

theorem lookup_filter_ne_other {β : Type} (l : List (String × β)) (k k2 : String)
    (h : k2 ≠ k) : (l.filter (fun p => p.1 ≠ k)).lookup k2 = l.lookup k2 := by
  induction l with
  | nil => simp
  | cons p t ih =>
    by_cases hp : p.1 = k
    · have hne : k2 ≠ p.1 := by rw [hp]; exact h
      simpa [List.filter_cons, hp, lookup_cons_pair, hne, h] using ih
    · by_cases hp2 : k2 = p.1
      · simp [List.filter_cons, hp, lookup_cons_pair, hp2]
      · simpa [List.filter_cons, hp, lookup_cons_pair, hp2] using ih

theorem lookup_map_overwrite {β : Type} (l : List (String × β)) (k : String) (v : β) :
    (l.map (fun p => if p.1 = k then (k, v) else p)).lookup k
      = if l.any (fun p => p.1 = k) then some v else none := by
  induction l with
  | nil => simp
  | cons p t ih =>
    simp only [List.map_cons, List.any_cons]
    by_cases h : p.1 = k
    · rw [if_pos h]
      simp [lookup_cons_pair, h]
    · rw [if_neg h, lookup_cons_pair, if_neg (Ne.symm h), ih]
      have hd : decide (p.1 = k) = false := decide_eq_false h
      simp only [hd, Bool.false_or]

theorem lookup_map_overwrite_other {β : Type} (l : List (String × β)) (k k2 : String)
    (v : β) (h : k2 ≠ k) :
    (l.map (fun p => if p.1 = k then (k, v) else p)).lookup k2 = l.lookup k2 := by
  induction l with
  | nil => simp
  | cons p t ih =>
    by_cases hp : p.1 = k
    · have hne : k2 ≠ p.1 := by rw [hp]; exact h
      simpa [hp, lookup_cons_pair, h, hne] using ih
    · by_cases hp2 : k2 = p.1
      · simp [hp, lookup_cons_pair, hp2]
      · simpa [hp, lookup_cons_pair, hp2] using ih

theorem lookup_append_single {β : Type} (l : List (String × β)) (k : String) (v : β)
    (h : l.any (fun p => p.1 = k) = false) : (l ++ [(k, v)]).lookup k = some v := by
  induction l with
  | nil => simp [lookup_cons_pair]
  | cons p t ih =>
    simp only [List.any_cons, Bool.or_eq_false_iff, decide_eq_false_iff_not] at h
    simpa [lookup_cons_pair, Ne.symm h.1] using ih (by simpa using h.2)

theorem lookup_append_single_other {β : Type} (l : List (String × β)) (k k2 : String)
    (v : β) (h : k2 ≠ k) : (l ++ [(k, v)]).lookup k2 = l.lookup k2 := by
  induction l with
  | nil => simp [lookup_cons_pair, h]
  | cons p t ih =>
    by_cases hp : k2 = p.1
    · simp [lookup_cons_pair, hp]
    · simpa [lookup_cons_pair, hp] using ih

theorem lookup_assocSet_self {β : Type} (l : List (String × β)) (k : String) (v : β) :
    (assocSet l k v).lookup k = some v := by
  unfold assocSet
  cases ha : l.any (fun p => p.1 = k) with
  | true => simp [ha, lookup_map_overwrite]
  | false =>
    rw [if_neg (by simp [ha])]
    exact lookup_append_single l k v ha

theorem lookup_assocSet_other {β : Type} (l : List (String × β)) (k k2 : String)
    (v : β) (h : k2 ≠ k) : (assocSet l k v).lookup k2 = l.lookup k2 := by
  unfold assocSet
  cases ha : l.any (fun p => p.1 = k) with
  | true => simp [ha, lookup_map_overwrite_other l k k2 v h]
  | false =>
    rw [if_neg (by simp [ha])]
    exact lookup_append_single_other l k k2 v h

theorem mem_assocSet {β : Type} (l : List (String × β)) (k : String) (v : β)
    (p : String × β) (h : p ∈ assocSet l k v) : p.1 = k ∨ p ∈ l := by
  unfold assocSet at h
  by_cases ha : l.any (fun p => p.1 = k)
  · rw [if_pos ha] at h
    obtain ⟨q, hq, he⟩ := List.mem_map.1 h
    by_cases hqk : q.1 = k
    · left
      rw [if_pos hqk] at he
      rw [← he]
    · right
      rw [if_neg hqk] at he
      rw [← he]; exact hq
  · rw [if_neg ha] at h
    rcases List.mem_append.1 h with hl | hr
    · right; exact hl
    · left
      have : p = (k, v) := by simpa using hr
      rw [this]

/-! The partition loop of renderSearch computes the two order-preserving
filters of the candidate pool. -/

theorem partitionHits_foldl (favs : List String) (hits : List Record)
    (a b : List Record) :
    hits.foldl
        (fun acc it =>
          if it.code ∈ favs then (acc.1 ++ [it], acc.2) else (acc.1, acc.2 ++ [it]))
        (a, b)
      = (a ++ hits.filter (fun r => decide (r.code ∈ favs)),
         b ++ hits.filter (fun r => decide (r.code ∉ favs))) := by
  induction hits generalizing a b with
  | nil => simp
  | cons h t ih =>
    by_cases hm : h.code ∈ favs
    · simp [List.filter_cons, hm, ih]
    · simp [List.filter_cons, hm, ih]

theorem partitionHits_eq (favs : List String) (hits : List Record) :
    partitionHits favs hits
      = (hits.filter (fun r => decide (r.code ∈ favs)),
         hits.filter (fun r => decide (r.code ∉ favs))) := by
  unfold partitionHits
  simpa using partitionHits_foldl favs hits [] []

/-- C2: partitioning the candidate pool into favoriteHits and otherHits
is complete (their union is a permutation of the pool), disjoint (no
record lands in both), and order-preserving (each partition is a
sublist of the pool, keeping the relative order of the pool); moreover
the two partitions are exactly the in-order filters of the pool by
favorite-set membership of the code. -/
theorem C2_partition_pool (favs : List String) (hits : List Record) :
    (partitionHits favs hits).1 = hits.filter (fun r => decide (r.code ∈ favs))
  ∧ (partitionHits favs hits).2 = hits.filter (fun r => decide (r.code ∉ favs))
  ∧ ((partitionHits favs hits).1 ++ (partitionHits favs hits).2).Perm hits
  ∧ (∀ r, r ∈ (partitionHits favs hits).1 → r ∉ (partitionHits favs hits).2)
  ∧ (partitionHits favs hits).1.Sublist hits
  ∧ (partitionHits favs hits).2.Sublist hits := by
  have he := partitionHits_eq favs hits
  refine ⟨by rw [he], by rw [he], ?_, ?_, ?_, ?_⟩
  · rw [he]
    have := List.filter_append_perm (fun r => decide (r.code ∈ favs)) hits
    simpa [decide_not] using this
  · intro r h1 h2
    rw [he] at h1 h2
    simp only [List.mem_filter, decide_eq_true_eq] at h1 h2
    exact h2.2 h1.2
  · rw [he]; exact List.filter_sublist hits
  · rw [he]; exact List.filter_sublist hits

/-- Concrete witness for C2 at a two-record pool with one favorite. -/
theorem C2_partition_pool_witness :
    (⟨"X", "x", "diag", none, []⟩ : Record)
        ∈ (partitionHits ["X"] [⟨"X", "x", "diag", none, []⟩, ⟨"Z", "z", "diag", none, []⟩]).1
  ∧ (⟨"X", "x", "diag", none, []⟩ : Record)
        ∉ (partitionHits ["X"] [⟨"X", "x", "diag", none, []⟩, ⟨"Z", "z", "diag", none, []⟩]).2 :=
  ⟨by decide,
   (C2_partition_pool ["X"] [⟨"X", "x", "diag", none, []⟩, ⟨"Z", "z", "diag", none, []⟩]).2.2.2.1
     ⟨"X", "x", "diag", none, []⟩ (by decide)⟩

/-! Properties of the favorite-list comparator and of getFavRecords. -/

theorem favLe_iff (lru : List (String × Nat)) (a b : Record) :
    favLe lru a b = true
      ↔ (lruTs lru b.code < lruTs lru a.code
          ∨ (lruTs lru a.code = lruTs lru b.code ∧ a.code ≤ b.code)) := by
  simp [favLe, Bool.or_eq_true, Bool.and_eq_true, decide_eq_true_eq]

theorem favLe_trans (lru : List (String × Nat)) (a b c : Record)
    (hab : favLe lru a b) (hbc : favLe lru b c) : favLe lru a c := by
  rw [favLe_iff] at hab hbc ⊢
  rcases hab with h1 | ⟨h1, h1c⟩
  · rcases hbc with h2 | ⟨h2, h2c⟩
    · exact Or.inl (h2.trans h1)
    · exact Or.inl (h2 ▸ h1)
  · rcases hbc with h2 | ⟨h2, h2c⟩
    · exact Or.inl (h1 ▸ h2)
    · exact Or.inr ⟨h1.trans h2, h1c.trans h2c⟩

theorem favLe_total (lru : List (String × Nat)) (a b : Record) :
    favLe lru a b || favLe lru b a := by
  rw [Bool.or_eq_true, favLe_iff, favLe_iff]
  rcases Nat.lt_trichotomy (lruTs lru a.code) (lruTs lru b.code) with h | h | h
  · exact Or.inr (Or.inl h)
  · rcases le_total a.code b.code with hc | hc
    · exact Or.inl (Or.inr ⟨h, hc⟩)
    · exact Or.inr (Or.inr ⟨h.symm, hc⟩)
  · exact Or.inl (Or.inl h)

theorem mem_getFavRecords (all : List Record) (favs : List String)
    (lru : List (String × Nat)) (r : Record)
    (hr : r ∈ getFavRecords all favs lru) : r ∈ all ∧ r.code ∈ favs := by
  unfold getFavRecords at hr
  have hr2 := List.mem_mergeSort.1 hr
  obtain ⟨code, hcode, hbc⟩ := List.mem_filterMap.1 hr2
  unfold byCodeGet at hbc
  have hmem := List.mem_of_getLast?_eq_some hbc
  have := List.mem_filter.1 hmem
  refine ⟨this.1, ?_⟩
  have hrc : r.code = code := by simpa using this.2
  rw [hrc]
  exact hcode

theorem getFavRecords_complete (all : List Record) (favs : List String)
    (lru : List (String × Nat)) (code : String) (hcode : code ∈ favs)
    (r : Record) (hr : r ∈ all) (hrc : r.code = code) :
    ∃ x ∈ getFavRecords all favs lru, x.code = code := by
  have hmem : r ∈ all.filter (fun x => x.code = code) :=
    List.mem_filter.2 ⟨hr, by simpa using hrc⟩
  have hne : all.filter (fun x => x.code = code) ≠ [] := List.ne_nil_of_mem hmem
  obtain ⟨x, hx⟩ := Option.isSome_iff_exists.1 (List.getLast?_isSome.2 hne)
  have hxf : x ∈ all.filter (fun x => x.code = code) := List.mem_of_getLast?_eq_some hx
  have hxc : x.code = code := by simpa using (List.mem_filter.1 hxf).2
  refine ⟨x, ?_, hxc⟩
  unfold getFavRecords
  exact List.mem_mergeSort.2 (List.mem_filterMap.2 ⟨code, hcode, hx⟩)

theorem getFavRecords_sorted (all : List Record) (favs : List String)
    (lru : List (String × Nat)) :
    (getFavRecords all favs lru).Pairwise
      (fun a b => lruTs lru b.code < lruTs lru a.code
        ∨ (lruTs lru a.code = lruTs lru b.code ∧ a.code ≤ b.code)) := by
  unfold getFavRecords
  have hs :=
    List.sorted_mergeSort (favLe_trans lru) (favLe_total lru)
      (favs.filterMap (byCodeGet all))
  exact hs.imp (fun h => (favLe_iff lru _ _).1 h)

/-- Record A of the ordering scenario in the spec. -/
def recA : Record := ⟨"A", "alpha", "diag", none, []⟩

/-- Record B of the ordering scenario in the spec. -/
def recB : Record := ⟨"B", "beta", "diag", none, []⟩

/-- Record C of the ordering scenario in the spec. -/
def recC : Record := ⟨"C", "gamma", "diag", none, []⟩

/-- Catalog of the ordering scenario. -/
def catalogC3 : List Record := [recA, recB, recC]

/-- Favorited codes of the ordering scenario. -/
def favsC3 : List String := ["A", "B", "C"]

/-- Recency map of the ordering scenario: A touched at 100, B at 200,
C has no timestamp. -/
def lruC3 : List (String × Nat) := [("A", 100), ("B", 200)]

/-- C3: getFavRecords returns exactly the favorited codes that resolve
to a record of the catalog (every returned record is a catalog record
with a favorited code, codes without a catalog record are silently
dropped, and every favorited code with a catalog record is returned),
the result is sorted by last-touched timestamp descending with ties
broken by ascending code and a missing timestamp read as 0, and in the
concrete scenario A touched at 100, B at 200, C untouched the order is
B, A, C. -/
theorem C3_getFavRecords (all : List Record) (favs : List String)
    (lru : List (String × Nat)) :
    (∀ r ∈ getFavRecords all favs lru, r ∈ all ∧ r.code ∈ favs)
  ∧ (∀ code ∈ favs, ∀ r ∈ all, r.code = code →
      ∃ x ∈ getFavRecords all favs lru, x.code = code)
  ∧ (getFavRecords all favs lru).Pairwise
      (fun a b => lruTs lru b.code < lruTs lru a.code
        ∨ (lruTs lru a.code = lruTs lru b.code ∧ a.code ≤ b.code))
  ∧ getFavRecords catalogC3 favsC3 lruC3 = [recB, recA, recC] := by
  refine ⟨fun r hr => mem_getFavRecords all favs lru r hr,
    fun code hcode r hr hrc => getFavRecords_complete all favs lru code hcode r hr hrc,
    getFavRecords_sorted all favs lru, ?_⟩
  simp [getFavRecords, byCodeGet, catalogC3, favsC3, lruC3, recA, recB, recC,
    List.mergeSort, List.splitInTwo, List.splitAt, List.splitAt.go, List.merge,
    favLe, lruTs, List.filter, List.lookup]

/-- Concrete witness for C3: record B is returned for favorited code B,
and every returned record is a favorited catalog record. -/
theorem C3_getFavRecords_witness :
    recB ∈ catalogC3 ∧ recB.code ∈ favsC3 :=
  (C3_getFavRecords catalogC3 favsC3 lruC3).1 recB
    (by rw [(C3_getFavRecords catalogC3 favsC3 lruC3).2.2.2]; decide)

/-! The pinned-favorites and other-results outputs of renderSearch. -/

theorem any_code_eq_mem_map (fh : List Record) (r : Record) :
    (fh.any (fun x => x.code = r.code)) = decide (r.code ∈ fh.map Record.code) := by
  by_cases h : r.code ∈ fh.map Record.code
  · obtain ⟨x, hx, hxc⟩ := List.mem_map.1 h
    have ha : fh.any (fun x => x.code = r.code) = true :=
      List.any_eq_true.2 ⟨x, hx, by simpa using hxc⟩
    rw [ha, decide_eq_true h]
  · have ha : fh.any (fun x => x.code = r.code) = false := by
      rw [List.any_eq_false]
      intro x hx
      simp only [decide_eq_true_eq]
      intro he
      exact h (List.mem_map.2 ⟨x, hx, he⟩)
    rw [ha, decide_eq_false h]

/-- C1: the pinned-favorites output is computed from the full favorite
set in recency order via getFavRecords: with an empty trimmed query it
is exactly the full recency-ordered favorite list, and with a non-empty
trimmed query it is that same list filtered to exactly the favorites
whose code appears among the codes of favoriteHits. -/
theorem C1_pinned_favorites (fs : String → List Record) (data : List Record)
    (favs : List String) (lru : List (String × Nat)) (qraw : String) :
    (jsTrim qraw = "" →
      (renderSearch fs data favs lru qraw).pinnedFavs = getFavRecords data favs lru)
  ∧ (jsTrim qraw ≠ "" →
      (renderSearch fs data favs lru qraw).pinnedFavs
        = (getFavRecords data favs lru).filter
            (fun r =>
              decide (r.code ∈ (partitionHits favs (fs (jsTrim qraw))).1.map Record.code))) := by
  constructor
  · intro h
    simp [renderSearch, h]
  · intro h
    simp only [renderSearch, if_pos h]
    exact List.filter_congr
      (fun r _ => any_code_eq_mem_map (partitionHits favs (fs (jsTrim qraw))).1 r)

/-- Record X of the pinning scenario: a favorite matching the query. -/
def rX : Record := ⟨"X", "x match", "diag", none, []⟩

/-- Record Y of the pinning scenario: a favorite not matching the query. -/
def rY : Record := ⟨"Y", "y other", "diag", none, []⟩

/-- Record Z of the pinning scenario: a non-favorite matching the query. -/
def rZ : Record := ⟨"Z", "z match", "diag", none, []⟩

/-- Catalog of the pinning scenario. -/
def catC1 : List Record := [rX, rY, rZ]

/-- Favorite codes of the pinning scenario: X and Y. -/
def favsC1 : List String := ["X", "Y"]

/-- The fuzzy index of the pinning scenario: the query matches X and Z. -/
def fsC1 : String → List Record := fun _ => [rX, rZ]

/-- Concrete witness for C1, the favorite pinning scenario: query abc
over catalog X (favorite, matches), Y (favorite, no match), Z
(non-favorite, matches) pins exactly X and lists exactly Z under other
results. -/
theorem C1_pinned_favorites_witness :
    (renderSearch fsC1 catC1 favsC1 [] "abc").pinnedFavs = [rX]
  ∧ (renderSearch fsC1 catC1 favsC1 [] "abc").otherResults = [rZ] := by
  constructor
  · rw [(C1_pinned_favorites fsC1 catC1 favsC1 [] "abc").2 (by decide)]
    simp [getFavRecords, byCodeGet, catC1, favsC1, fsC1, rX, rY, rZ,
      List.mergeSort, List.splitInTwo, List.splitAt, List.splitAt.go, List.merge,
      favLe, lruTs, partitionHits, jsTrim, List.filter, List.lookup]
  · simp [renderSearch, partitionHits, catC1, favsC1, fsC1, rX, rY, rZ, jsTrim,
      MAX_RESULTS, getFavRecords, byCodeGet,
      List.mergeSort, List.splitInTwo, List.splitAt, List.splitAt.go, List.merge,
      favLe, lruTs, List.filter, List.lookup]

/-- C5: MAX_RESULTS defaults to 100; the other-results output is always
otherHits truncated to MAX_RESULTS; with an empty trimmed query the
candidate pool is the first 2 * MAX_RESULTS catalog records in catalog
order (no fuzzy search applied), the other-results output is the first
MAX_RESULTS non-favorite records of that pool, and a 250-record catalog
yields a 200-record pool. -/
theorem C5_empty_query_pool (fs : String → List Record) (data : List Record)
    (favs : List String) (lru : List (String × Nat)) (qraw : String) :
    MAX_RESULTS = 100
  ∧ (renderSearch fs data favs lru qraw).otherResults
      = ((if jsTrim qraw ≠ "" then fs (jsTrim qraw) else data.take (MAX_RESULTS * 2)).filter
          (fun r => decide (r.code ∉ favs))).take MAX_RESULTS
  ∧ (jsTrim qraw = "" →
      (renderSearch fs data favs lru qraw).otherResults
        = ((data.take (MAX_RESULTS * 2)).filter (fun r => decide (r.code ∉ favs))).take
            MAX_RESULTS
      ∧ (data.length = 250 → (data.take (MAX_RESULTS * 2)).length = 200)) := by
  refine ⟨rfl, ?_, ?_⟩
  · simp only [renderSearch, partitionHits_eq]
  · intro h
    constructor
    · simp [renderSearch, h, partitionHits_eq]
    · intro h250
      rw [List.length_take, h250]
      decide

/-- A numbered record of the 250-record empty-query scenario. -/
def mkRec (i : Nat) : Record := ⟨toString i, "name", "diag", none, []⟩

/-- The 250-record catalog of the empty-query scenario. -/
def data250 : List Record := (List.range 250).map mkRec

/-- Concrete witness for C5: on the 250-record catalog with no
favorites and an empty query, the pool is the first 200 records. -/
theorem C5_empty_query_pool_witness :
    jsTrim "" = "" ∧ data250.length = 250 ∧ (data250.take (MAX_RESULTS * 2)).length = 200 :=
  ⟨by decide, by simp [data250],
   ((C5_empty_query_pool (fun _ => []) data250 [] [] "").2.2 (by decide)).2
     (by simp [data250])⟩

/-! Favorite toggling: membership, timestamps and persistence. -/

/-- A state with no favorites, no storage, no dataset. -/
def emptyFavState : AppState := ⟨[], [], [], [], none, none⟩

/-- A state whose non-empty favorite set already contains code A,
with a stored timestamp for A. -/
def s0C4 : AppState := ⟨[], [], ["A"], [("A", 50)], none, none⟩

/-- The implicit invariant: every code in the resident timestamp map is
a member of the resident favorite set. -/
def LruInv (s : AppState) : Prop := ∀ p ∈ s.lru, p.1 ∈ s.favs

/-- Initial state of the C10 witness: favorite A with a timestamp. -/
def s0C10 : AppState := ⟨[], [], ["A"], [("A", 5)], none, none⟩

/-- Toggle sequence of the C10 witness: add B, remove A, remove B. -/
def opsC10 : List (String × Nat) := [("B", 10), ("A", 20), ("B", 30)]

theorem saveFavs_store (s : AppState) :
    (saveFavs s).store.lookup FAV_STORAGE_KEY = some (stringifyFavs s.favs)
  ∧ (saveFavs s).store.lookup FAV_LRU_KEY = some (stringifyLru s.lru) := by
  unfold saveFavs storeSet
  constructor
  · rw [lookup_assocSet_other _ _ _ _ (by decide)]
    exact lookup_assocSet_self _ _ _
  · exact lookup_assocSet_self _ _ _

theorem onStarClick_favs (s : AppState) (code : String) (t : Nat) :
    (onStarClick s code t).favs
      = if code ∈ s.favs then s.favs.filter (fun c => c ≠ code) else s.favs ++ [code] := by
  unfold onStarClick saveFavs
  by_cases h : code ∈ s.favs <;> simp [h]

theorem onStarClick_lru (s : AppState) (code : String) (t : Nat) :
    (onStarClick s code t).lru
      = if code ∈ s.favs then lruDelete s.lru code else touchFav s.lru code t := by
  unfold onStarClick saveFavs
  by_cases h : code ∈ s.favs <;> simp [h]

theorem onStarClick_store (s : AppState) (code : String) (t : Nat) :
    (onStarClick s code t).store.lookup FAV_STORAGE_KEY
      = some (stringifyFavs (onStarClick s code t).favs)
  ∧ (onStarClick s code t).store.lookup FAV_LRU_KEY
      = some (stringifyLru (onStarClick s code t).lru) := by
  unfold onStarClick
  by_cases h : code ∈ s.favs
  · simp only [if_pos h]
    exact saveFavs_store _
  · simp only [if_neg h]
    exact saveFavs_store _

/-- C4 (amended): a toggle on a present code removes it from the set
and deletes its timestamp entry, a toggle on an absent code adds it
with the given current time as timestamp; toggling the same code twice
always restores the original membership, and when the code was
initially absent the second call removes its timestamp entry (when it
was initially present, the second call instead installs a fresh
timestamp); every call persists the full set and the full timestamp
map to their storage keys. -/
theorem C4_toggle_twice (s : AppState) (code : String) (t1 t2 : Nat) :
    (code ∈ s.favs →
      code ∉ (onStarClick s code t1).favs
      ∧ (onStarClick s code t1).lru.lookup code = none)
  ∧ (code ∉ s.favs →
      code ∈ (onStarClick s code t1).favs
      ∧ (onStarClick s code t1).lru.lookup code = some t1)
  ∧ (∀ c, c ∈ (onStarClick (onStarClick s code t1) code t2).favs ↔ c ∈ s.favs)
  ∧ (code ∉ s.favs →
      (onStarClick (onStarClick s code t1) code t2).lru.lookup code = none)
  ∧ (onStarClick s code t1).store.lookup FAV_STORAGE_KEY
      = some (stringifyFavs (onStarClick s code t1).favs)
  ∧ (onStarClick s code t1).store.lookup FAV_LRU_KEY
      = some (stringifyLru (onStarClick s code t1).lru) := by
  have hfav1 := onStarClick_favs s code t1
  have hlru1 := onStarClick_lru s code t1
  have hfav2 := onStarClick_favs (onStarClick s code t1) code t2
  have hlru2 := onStarClick_lru (onStarClick s code t1) code t2
  refine ⟨?_, ?_, ?_, ?_, (onStarClick_store s code t1).1, (onStarClick_store s code t1).2⟩
  · intro h
    rw [hfav1, if_pos h, hlru1, if_pos h]
    constructor
    · intro hmem
      simpa using (List.mem_filter.1 hmem).2
    · exact lookup_filter_ne_self s.lru code
  · intro h
    rw [hfav1, if_neg h, hlru1, if_neg h]
    exact ⟨List.mem_append_right _ (by simp), lookup_assocSet_self s.lru code t1⟩
  · intro c
    by_cases h : code ∈ s.favs
    · have h1 : code ∉ (onStarClick s code t1).favs := by
        rw [hfav1, if_pos h]
        intro hmem
        simpa using (List.mem_filter.1 hmem).2
      rw [hfav2, if_neg h1, hfav1, if_pos h]
      simp only [List.mem_append, List.mem_filter, List.mem_singleton]
      constructor
      · rintro (⟨hc, _⟩ | rfl)
        · exact hc
        · exact h
      · intro hc
        by_cases hcc : c = code
        · exact Or.inr hcc
        · exact Or.inl ⟨hc, by simpa using hcc⟩
    · have h1 : code ∈ (onStarClick s code t1).favs := by
        rw [hfav1, if_neg h]
        exact List.mem_append_right _ (by simp)
      rw [hfav2, if_pos h1, hfav1, if_neg h]
      simp only [List.filter_append, List.mem_append, List.mem_filter,
        List.mem_singleton, decide_eq_true_eq]
      constructor
      · rintro (⟨hc, hne⟩ | ⟨rfl, hne⟩)
        · exact hc
        · exact absurd rfl hne
      · intro hc
        exact Or.inl ⟨hc, fun e => h (e ▸ hc)⟩
  · intro h
    have h1 : code ∈ (onStarClick s code t1).favs := by
      rw [hfav1, if_neg h]
      exact List.mem_append_right _ (by simp)
    rw [hlru2, if_pos h1]
    exact lookup_filter_ne_self _ code

/-- Witness for the amended C4: a toggle-twice run on an initially
absent code, with both hypotheses discharged concretely. -/
theorem C4_toggle_twice_witness :
    ("B" ∉ emptyFavState.favs)
  ∧ (onStarClick (onStarClick emptyFavState "B" 60) "B" 70).lru.lookup "B" = none :=
  ⟨by decide, (C4_toggle_twice emptyFavState "B" 60 70).2.2.2.1 (by decide)⟩

/-- C4 counterexample: a non-empty favorite set in which the toggled
code is already present.  Toggling A twice restores membership, but the
second call does not remove the timestamp entry of A: it installs the
fresh timestamp 70, so the claim as stated fails. -/
theorem C4_counterexample :
    s0C4.favs ≠ []
  ∧ (onStarClick (onStarClick s0C4 "A" 60) "A" 70).favs = s0C4.favs
  ∧ (onStarClick (onStarClick s0C4 "A" 60) "A" 70).lru.lookup "A" = some 70
  ∧ ¬((onStarClick (onStarClick s0C4 "A" 60) "A" 70).lru.lookup "A" = none) := by
  decide

/-- C10: the invariant that every code in the timestamp map belongs to
the favorite set is preserved by each onStarClick toggle, and hence by
any sequence of toggles. -/
theorem C10_lru_domain_invariant :
    (∀ (s : AppState) (code : String) (now : Nat),
      LruInv s → LruInv (onStarClick s code now))
  ∧ (∀ (s : AppState) (ops : List (String × Nat)),
      LruInv s →
        LruInv (ops.foldl (fun st op => onStarClick st op.1 op.2) s)) := by
  have single : ∀ (s : AppState) (code : String) (now : Nat),
      LruInv s → LruInv (onStarClick s code now) := by
    intro s code now hInv
    intro p hp
    rw [onStarClick_lru] at hp
    rw [onStarClick_favs]
    by_cases h : code ∈ s.favs
    · rw [if_pos h] at hp
      rw [if_pos h]
      unfold lruDelete at hp
      have := List.mem_filter.1 hp
      exact List.mem_filter.2 ⟨hInv p this.1, this.2⟩
    · rw [if_neg h] at hp
      rw [if_neg h]
      unfold touchFav at hp
      rcases mem_assocSet s.lru code now p hp with hc | hmem
      · exact List.mem_append_right _ (by simp [hc])
      · exact List.mem_append_left _ (hInv p hmem)
  refine ⟨single, ?_⟩
  intro s ops
  induction ops generalizing s with
  | nil => exact fun h => h
  | cons op t ih =>
    intro h
    exact ih (onStarClick s op.1 op.2) (single s op.1 op.2 h)

/-- Witness for C10: a concrete initial state satisfying the invariant
and a concrete three-toggle sequence, with the invariant hypothesis
discharged by evaluation. -/
theorem C10_lru_domain_invariant_witness :
    LruInv s0C10
  ∧ LruInv (opsC10.foldl (fun st op => onStarClick st op.1 op.2) s0C10) :=
  ⟨by unfold LruInv; decide,
   C10_lru_domain_invariant.2 s0C10 opsC10 (by unfold LruInv; decide)⟩

/-! Dataset cache lifecycle: clear, export, refresh and load. -/

/-- C7: the clear handler deletes only the dataset snapshot storage
key: localStorage as a whole, the resident favorite set and timestamp
map, and in particular the two favorite storage keys, are unchanged;
the dataset key reads as absent afterwards and every other IndexedDB
key is unchanged. -/
theorem C7_clear_only_snapshot (s : AppState) :
    (btnClearClick s).store = s.store
  ∧ (btnClearClick s).favs = s.favs
  ∧ (btnClearClick s).lru = s.lru
  ∧ (btnClearClick s).store.lookup FAV_STORAGE_KEY = s.store.lookup FAV_STORAGE_KEY
  ∧ (btnClearClick s).store.lookup FAV_LRU_KEY = s.store.lookup FAV_LRU_KEY
  ∧ (btnClearClick s).idb.lookup KEY = none
  ∧ (∀ k, k ≠ KEY → (btnClearClick s).idb.lookup k = s.idb.lookup k) := by
  refine ⟨rfl, rfl, rfl, rfl, rfl, ?_, ?_⟩
  · show (idbDel s.idb KEY).lookup KEY = none
    unfold idbDel
    exact lookup_filter_ne_self s.idb KEY
  · intro k hk
    show (idbDel s.idb KEY).lookup k = s.idb.lookup k
    unfold idbDel
    exact lookup_filter_ne_other s.idb KEY k hk

/-- A state with a cached snapshot and persisted favorites, used by the
clear and export witnesses. -/
def s0Cache : AppState :=
  ⟨[(KEY, ⟨"deadbeef", 7, Jv.arr [recA]⟩)], [(FAV_STORAGE_KEY, "[]"), (FAV_LRU_KEY, "\x7b\x7d")],
   [], [], none, none⟩

/-- Witness for C7 at a concrete state and a concrete non-dataset
key. -/
theorem C7_clear_only_snapshot_witness :
    ("other" : String) ≠ KEY
  ∧ (btnClearClick s0Cache).idb.lookup "other" = s0Cache.idb.lookup "other" :=
  ⟨by decide, (C7_clear_only_snapshot s0Cache).2.2.2.2.2.2 "other" (by decide)⟩

/-- C8: with no cached snapshot the export produces no artifact; with a
cached snapshot it produces an artifact with the fixed file name
icd9.json whose content is the serialization of exactly the stored
record list, the records serialized in stored order with no
re-ordering. -/
theorem C8_export_fixed_name (s : AppState) :
    (s.idb.lookup KEY = none → btnExportClick s = none)
  ∧ (∀ c, s.idb.lookup KEY = some c →
      btnExportClick s = some ("icd9.json", stringifyJv c.data)
      ∧ ∀ rs, c.data = Jv.arr rs →
          stringifyJv c.data
            = "[" ++ String.intercalate "," (rs.map recordToJson) ++ "]") := by
  constructor
  · intro h
    simp [btnExportClick, h]
  · intro c hc
    refine ⟨by simp [btnExportClick, hc], ?_⟩
    intro rs hrs
    rw [hrs, stringifyJv]

/-- Witness for C8: exporting a concrete cached snapshot. -/
theorem C8_export_fixed_name_witness :
    s0Cache.idb.lookup KEY = some ⟨"deadbeef", 7, Jv.arr [recA]⟩
  ∧ btnExportClick s0Cache = some ("icd9.json", stringifyJv (Jv.arr [recA])) :=
  ⟨by decide,
   ((C8_export_fixed_name s0Cache).2 ⟨"deadbeef", 7, Jv.arr [recA]⟩ (by decide)).1⟩

/-- C9: fetchAndCache fails with a fetch error exactly when the network
request does not succeed (a transport error or a response whose ok flag
is false), and on every failure, fetch error or decode error alike, the
whole state, persisted snapshot and resident catalog and search index
included, is unchanged. -/
theorem C9_fetch_error_frame (hash : List Nat → String) (parse : List Nat → Option Jv)
    (resp : Option FetchResp) (now : Nat) (s : AppState) :
    ((∃ m, (fetchAndCache hash parse resp now s).1 = some (FetchFailure.fetchError m))
        ↔ (resp = none ∨ ∃ r, resp = some r ∧ r.ok = false))
  ∧ ((fetchAndCache hash parse resp now s).1 ≠ none →
      (fetchAndCache hash parse resp now s).2 = s) := by
  cases resp with
  | none =>
    exact ⟨⟨fun _ => Or.inl rfl, fun _ => ⟨"transport", rfl⟩⟩, fun _ => rfl⟩
  | some r =>
    cases hok : r.ok with
    | false =>
      refine ⟨⟨fun _ => Or.inr ⟨r, rfl, hok⟩, fun _ => ⟨"Fetch failed", ?_⟩⟩, fun _ => ?_⟩
      · simp [fetchAndCache, hok]
      · simp [fetchAndCache, hok]
    | true =>
      have hrhs : ¬((some r : Option FetchResp) = none
          ∨ ∃ r2, some r = some r2 ∧ r2.ok = false) := by
        rintro (hn | ⟨r2, hr2, hr2ok⟩)
        · exact Option.noConfusion hn
        · obtain rfl : r = r2 := Option.some.inj hr2
          rw [hok] at hr2ok
          exact Bool.noConfusion hr2ok
      cases hp : parse r.bytes with
      | none =>
        refine ⟨⟨fun hm => absurd ?_ hrhs, fun h => absurd h hrhs⟩, fun _ => ?_⟩
        · exfalso
          obtain ⟨m, hm⟩ := hm
          simp [fetchAndCache, hok, hp] at hm
        · simp [fetchAndCache, hok, hp]
      | some j =>
        refine ⟨⟨fun hm => ?_, fun h => absurd h hrhs⟩, fun hne => ?_⟩
        · exfalso
          obtain ⟨m, hm⟩ := hm
          simp [fetchAndCache, hok, hp] at hm
        · exfalso
          apply hne
          simp [fetchAndCache, hok, hp]

/-- Witness for C9: a transport error leaves a concrete state
unchanged and is reported as a fetch error. -/
theorem C9_fetch_error_frame_witness :
    (fetchAndCache (fun _ => "h") (fun _ => none) none 0 s0Cache).1 ≠ none
  ∧ (fetchAndCache (fun _ => "h") (fun _ => none) none 0 s0Cache).2 = s0Cache :=
  ⟨by decide,
   (C9_fetch_error_frame (fun _ => "h") (fun _ => none) none 0 s0Cache).2 (by decide)⟩

/-- C6 (amended): for every fetched payload whose bytes parse to a
record array, fetchAndCache succeeds, persists under the dataset key,
overwriting any prior snapshot, a cached value whose version is the
hash of the raw bytes, computed before decoding, and an immediately
following loadFromCache returns that very cached value, version and
records identical; and any refresh of a byte-identical payload stores
the same version, whatever its decode function, time or prior state. -/
theorem C6_refresh_load_roundtrip (hash : List Nat → String)
    (parse : List Nat → Option Jv) (r : FetchResp) (now : Nat) (s : AppState)
    (rs : List Record) (hok : r.ok = true) (hp : parse r.bytes = some (Jv.arr rs)) :
    (fetchAndCache hash parse (some r) now s).1 = none
  ∧ (fetchAndCache hash parse (some r) now s).2.idb.lookup KEY
      = some ⟨hash r.bytes, now, Jv.arr rs⟩
  ∧ (loadFromCache (fetchAndCache hash parse (some r) now s).2).1
      = some ⟨hash r.bytes, now, Jv.arr rs⟩
  ∧ (∀ (parse2 : List Nat → Option Jv) (now2 : Nat) (s2 : AppState) (r2 : FetchResp)
        (rs2 : List Record), r2.bytes = r.bytes → r2.ok = true →
        parse2 r2.bytes = some (Jv.arr rs2) →
        ((fetchAndCache hash parse2 (some r2) now2 s2).2.idb.lookup KEY).map
            CachedValue.version
          = some (hash r.bytes)) := by
  have hstep : ∀ (parse2 : List Nat → Option Jv) (now2 : Nat) (s2 : AppState)
      (r2 : FetchResp) (rs2 : List Record), r2.ok = true →
      parse2 r2.bytes = some (Jv.arr rs2) →
      (fetchAndCache hash parse2 (some r2) now2 s2).2.idb.lookup KEY
        = some ⟨hash r2.bytes, now2, Jv.arr rs2⟩ := by
    intro parse2 now2 s2 r2 rs2 hok2 hp2
    simp only [fetchAndCache, hok2, hp2]
    simp only [Bool.true_eq_false, if_false]
    exact lookup_assocSet_self s2.idb KEY _
  have h1 : (fetchAndCache hash parse (some r) now s).1 = none := by
    simp [fetchAndCache, hok, hp]
  have h2 := hstep parse now s r rs hok hp
  refine ⟨h1, h2, ?_, ?_⟩
  · unfold loadFromCache
    rw [h2]
  · intro parse2 now2 s2 r2 rs2 hb hok2 hp2
    rw [hstep parse2 now2 s2 r2 rs2 hok2 hp2, hb]
    rfl

/-- Witness for the amended C6: a concrete successful refresh followed
by a load returns the freshly stored snapshot. -/
theorem C6_refresh_load_roundtrip_witness :
    (⟨true, [1, 2]⟩ : FetchResp).ok = true
  ∧ (loadFromCache
        (fetchAndCache (fun _ => "h") (fun _ => some (Jv.arr [recA]))
          (some ⟨true, [1, 2]⟩) 5 emptyFavState).2).1
      = some ⟨"h", 5, Jv.arr [recA]⟩ :=
  ⟨rfl,
   (C6_refresh_load_roundtrip (fun _ => "h") (fun _ => some (Jv.arr [recA]))
      ⟨true, [1, 2]⟩ 5 emptyFavState [recA] rfl rfl).2.2.1⟩

/-- C6 counterexample: a payload whose bytes parse to a non-array JSON
value.  fetchAndCache succeeds, so the claim quantified over every
fetched payload applies, yet the immediately following loadFromCache
rejects the stored value (the Array.isArray check) and returns absent
instead of a snapshot with identical version and records. -/
theorem C6_refresh_load_counterexample :
    (fetchAndCache (fun _ => "h") (fun _ => some (Jv.other "0"))
        (some ⟨true, [1]⟩) 5 emptyFavState).1 = none
  ∧ (loadFromCache
        (fetchAndCache (fun _ => "h") (fun _ => some (Jv.other "0"))
          (some ⟨true, [1]⟩) 5 emptyFavState).2).1 = none := by
  decide

end Icd9
